import Mathlib

/-!
Verification development for the go-rest request-dispatch core.

The definitions below are a shallow embedding of the repository sources:
  pipeline.go  -- Request wrapper, Accepts, Pipeline (Add, Next, ServeRequest)
  entity.go    -- Response envelope, Entity model, DefaultEntityHandler
  error.go     -- structured Error, basicError
  context.go   -- Service dispatch: sendResponse, sendSuccess, sendError,
                  sendEntity, htmlError, Context.handle, Service.ServeHTTP

Conventions used throughout:
  - The http.ResponseWriter is modeled as a Sink recording every header
    addition, every status-line write and every body write, in order.
  - Go interface values that may be nil are modeled with Option.
  - A Go panic (nil-pointer method call) is modeled by an Option-valued
    dispatcher returning none.
  - io and json are external to the repository; an entity carries the bytes
    it yields (and an optional read failure), and a value destined for
    json.Marshal carries its marshal outcome (none = marshal failure).
  - Byte strings are modeled as Lean String values.
-/

namespace GoRest

/-- Observable effects on an http.ResponseWriter: headers added or set,
status-line writes (WriteHeader calls) and body writes, each in order. -/
structure Sink where
  headers : List (String × String)
  statusWrites : List Nat
  bodyWrites : List String
deriving Repr, DecidableEq

/-- Header().Add appends a key/value pair. -/
def Sink.addHeader (w : Sink) (k v : String) : Sink :=
  { w with headers := w.headers ++ [(k, v)] }

/-- Header().Set replaces all values of the key with the single value. -/
def Sink.setHeader (w : Sink) (k v : String) : Sink :=
  { w with headers := (w.headers.filter (fun kv => !(kv.1 == k))) ++ [(k, v)] }

/-- WriteHeader records a status-line write. -/
def Sink.writeHeader (w : Sink) (status : Nat) : Sink :=
  { w with statusWrites := w.statusWrites ++ [status] }

/-- Write records a body write. -/
def Sink.writeBody (w : Sink) (data : String) : Sink :=
  { w with bodyWrites := w.bodyWrites ++ [data] }

/-- An empty sink, as handed to the dispatcher by the host server. -/
def emptySink : Sink := ⟨[], [], []⟩

/-- Internal request flag bit set by Finalize, from pipeline.go. -/
def reqFlagFinalized : Nat := 1

/-- The service Request wrapper from pipeline.go. Only the fields the
verified claims observe are modeled: the Accept header value (none when the
header is absent), the generated identity, the flags word, and a reference
into the attribute heap (none models a nil Attrs map). The tracer, trace
list and start time are not read by any modeled operation. -/
structure Request where
  accept : Option String
  id : String
  flags : Nat
  attrs : Option Nat
deriving Repr, DecidableEq

/-- Header.Get for the Accept header: the empty string when absent. -/
def Request.acceptValue (r : Request) : String := r.accept.getD ""

/-- Finalize sets the finalized bit: flags = flags OR reqFlagFinalized. -/
def Request.Finalize (r : Request) : Request :=
  { r with flags := r.flags.lor reqFlagFinalized }

/-- The finalized test used by Context.handle:
(flags AND reqFlagFinalized) == reqFlagFinalized. -/
def Request.finalized (r : Request) : Bool :=
  r.flags.land reqFlagFinalized == reqFlagFinalized

/-- strings.Split on a one-character separator, over the character list of
the string: splitting the empty string yields one empty part, and every
separator occurrence starts a new part. -/
def goSplit (sep : Char) (s : List Char) : List (List Char) :=
  match s with
  | [] => [[]]
  | c :: rest =>
      let r := goSplit sep rest
      if c = sep then [] :: r
      else
        match r with
        | [] => [[c]]
        | g :: gs => (c :: g) :: gs

/-- ASCII whitespace recognized by strings.TrimSpace: space, tab, newline,
vertical tab, form feed, carriage return. -/
def isSpaceChar (c : Char) : Bool :=
  c.toNat = 32 || c.toNat = 9 || c.toNat = 10 || c.toNat = 11 ||
  c.toNat = 12 || c.toNat = 13

/-- strings.TrimSpace: drop whitespace from both ends. -/
def trimChars (s : List Char) : List Char :=
  ((s.dropWhile isSpaceChar).reverse.dropWhile isSpaceChar).reverse

/-- ASCII case folding of one character, as strings.EqualFold performs on
ASCII input: map an upper-case letter to its lower-case form. -/
def foldChar (c : Char) : Char :=
  if 65 ≤ c.toNat ∧ c.toNat ≤ 90 then Char.ofNat (c.toNat + 32) else c

/-- strings.EqualFold for ASCII input: equality after case folding. -/
def eqFold (a b : List Char) : Bool :=
  a.map foldChar == b.map foldChar

/-- Request.Accepts from pipeline.go: when the Accept header value is
nonempty, split it on commas and test each part, trimmed, for a
case-insensitive match with the argument; otherwise false. The early
return loop over the parts is the same function as List.any. -/
def Request.Accepts (r : Request) (ctype : String) : Bool :=
  let h := r.acceptValue
  if h ≠ "" then
    (goSplit ',' h.toList).any (fun p => eqFold (trimChars p) ctype.toList)
  else
    false

/-- Restatement of claim C10 in the words of the spec sentence: membership
of the content type in the comma-split, trimmed, case-folded parts of the
header value, with no special case for an empty header. Used only to
compare the spec wording against Request.Accepts. -/
def acceptsClaim (h : String) (ctype : String) : Bool :=
  (goSplit ',' h.toList).any (fun p => eqFold (trimChars p) ctype.toList)

/-- net/http.StatusText for the status codes exercised here; the empty
string for an unknown code, as in the Go standard library. -/
def statusText : Nat → String
  | 200 => "OK"
  | 302 => "Found"
  | 400 => "Bad Request"
  | 404 => "Not Found"
  | 500 => "Internal Server Error"
  | _ => ""

/-- Error values from error.go, closed over the shapes the dispatcher
distinguishes: the structured Error (status, optional headers, optional
cause), the basicError (status plus message, with JSON field tags), and any
other Go error (its message plus its abstract json.Marshal outcome). The
structured Error also carries its abstract marshal outcome; the Detail
field is not modeled because no verified claim reads it (the HTML detail
table and log detail formatting run only after a cause is present). -/
inductive GoErr where
  | structured (status : Nat) (headers : Option (List (String × String)))
      (cause : Option GoErr) (marshal : Option String)
  | basic (status : Nat) (msg : String)
  | plain (msg : String) (marshal : Option String)

/-- Error.Error from error.go: a structured Error reports the message of
its cause when one is present and the standard reason phrase of its status
otherwise; basicError reports its message. -/
def errMessage : GoErr → String
  | .structured s _ c _ =>
      match c with
      | some e => errMessage e
      | none => statusText s
  | .basic _ m => m
  | .plain m _ => m

/-- The JSON encoding of a basicError value, per its field tags in
error.go. Messages are assumed to need no JSON escaping. -/
def basicErrorJSON (status : Nat) (msg : String) : String :=
  "\x7b\"status\":" ++ toString status ++ ",\"message\":\"" ++ msg ++ "\"\x7d"

/-- html.EscapeString on one character: the five characters it escapes,
identified by code point. -/
def escChar (c : Char) : String :=
  if c.toNat = 38 then "&amp;"
  else if c.toNat = 39 then "&#39;"
  else if c.toNat = 60 then "&lt;"
  else if c.toNat = 62 then "&gt;"
  else if c.toNat = 34 then "&#34;"
  else String.singleton c

/-- html.EscapeString over a string. -/
def htmlEscape (s : String) : String := String.join (s.toList.map escChar)

/-- The HTML error document built by htmlError in context.go for an error
without structured detail: heading with status and reason phrase, then the
escaped message. The detail table is emitted only when the content exposes
an ErrorDetail, which no modeled error does. -/
def htmlErrorDoc (status : Nat) (escapedMsg : String) : String :=
  "<html><body>" ++
  "<h1>" ++ toString status ++ " " ++ statusText status ++ "</h1>" ++
  "<p>" ++ escapedMsg ++ "</p>" ++
  "</body></html>"

/-- The polymorphic response content consumed by the entity encoder, one
constructor per arm of the type switch in DefaultEntityHandler:
nil content, the NoopEntity marker, an Entity (content type, the bytes its
reader yields, and an optional read failure after those bytes), a
pre-encoded json.RawMessage, and any other value together with its abstract
json.Marshal outcome (none = marshal failure). -/
inductive Content where
  | nil
  | noop
  | entity (contentType : String) (data : String) (readErr : Option String)
  | rawJSON (data : String)
  | structured (marshal : Option String)
deriving Repr, DecidableEq

/-- DefaultEntityHandler from entity.go. Returns the error result paired
with the sink after its writes. Branches, in source order:
nil writes only the status line; NoopEntity writes nothing; an Entity sets
its content type, writes the status, streams the bytes and surfaces a read
failure as an error; json.RawMessage sets application/json, writes the
status, writes the bytes verbatim; anything else sets application/json,
writes the status, then attempts json.Marshal - on failure it returns an
error having written no body, on success it writes the marshaled bytes.
Sink body writes themselves are modeled as infallible; the only write
failure modeled is an Entity read error surfaced through io.Copy. The
diagnostic message text is abbreviated from the fmt.Errorf format strings
since no claim reads it. -/
def DefaultEntityHandler (w : Sink) (_req : Request) (status : Nat)
    (content : Content) : Option String × Sink :=
  match content with
  | .nil => (none, w.writeHeader status)
  | .noop => (none, w)
  | .entity ct data readErr =>
      let w1 := (w.addHeader "Content-Type" ct).writeHeader status
      let w2 := w1.writeBody data
      match readErr with
      | some e => (some ("Could not write entity: " ++ e), w2)
      | none => (none, w2)
  | .rawJSON data =>
      let w1 := (w.addHeader "Content-Type" "application/json").writeHeader status
      (none, w1.writeBody data)
  | .structured marshal =>
      let w1 := (w.addHeader "Content-Type" "application/json").writeHeader status
      match marshal with
      | none => (some "Could not marshal entity", w1)
      | some data => (none, w1.writeBody data)

/-- The terminal result value of a handler, modeling the interface typed
result in Go: either a Response envelope from entity.go (status code,
optional headers, entity) or any other value destined for the encoder. -/
inductive RVal where
  | response (status : Nat) (headers : Option (List (String × String))) (entity : Content)
  | value (c : Content)

/-- The outcome of running a handler: the (result, error) pair together
with the sink and the request as the handler left them (both are mutated
through pointers in Go). -/
abbrev HOutcome := (Option RVal × Option GoErr) × Sink × Request

/-- Handlers. A Go Handler is any value with a ServeRequest method; the
shapes a handler can take here are: an arbitrary function of the sink and
request that ignores its continuation (act), a middleware that transforms
the sink and request, delegates to the remaining pipeline and may rewrite
the outcome (wrap), and a Pipeline value used as a handler (pipe, carrying
an optional element list because a nil Pipeline is also a Handler). -/
inductive Handler where
  | act (f : Sink → Request → HOutcome)
  | wrap (pre : Sink → Request → Sink × Request) (post : HOutcome → HOutcome)
  | pipe (p : Option (List Handler))

/-- A Pipeline is a Go slice of handlers; none models the nil slice, which
Pipeline.Add distinguishes from an allocated empty slice. -/
abbrev Pipeline := Option (List Handler)

/-- Pipeline.Add from pipeline.go: a nil receiver returns the one-element
literal holding the handler unchanged (no flattening on this branch);
otherwise the receiver is copied and the handler is appended, with a
handler that is itself a Pipeline contributing its elements individually.
The defensive copy is a value-level no-op here; its memory-level effect is
modeled separately in the GoMem namespace. -/
def Pipeline.Add (p : Pipeline) (h : Handler) : Pipeline :=
  match p with
  | none => some [h]
  | some l =>
      match h with
      | .pipe v => some (l ++ v.getD [])
      | _ => some (l ++ [h])

mutual

/-- Pipeline.Next on the element list: an empty pipeline returns the
(nil, nil) outcome untouched; otherwise the first handler runs with the
remaining handlers as its continuation. -/
def nextList : List Handler → Sink → Request → HOutcome
  | [], w, r => ((none, none), w, r)
  | h :: t, w, r => serve h w r (some t)
termination_by l _ _ => sizeOf l
decreasing_by
  simp [Option.getD]

/-- ServeRequest for each handler shape. An act handler ignores the
continuation; a wrap handler preprocesses, delegates to the continuation
and postprocesses; a Pipeline used as a handler dispatches its own Next
and ignores the parameter pipeline, as the source notes. -/
def serve : Handler → Sink → Request → Pipeline → HOutcome
  | .act f, w, r, _ => f w r
  | .wrap pre post, w, r, x =>
      let s := pre w r
      post (nextList (x.getD []) s.1 s.2)
  | .pipe q, w, r, _ => nextList (q.getD []) w r
termination_by h _ _ x => sizeOf h + sizeOf (x.getD [])
decreasing_by
  all_goals
    (try cases x) <;> (try cases q) <;> simp [Option.getD] <;> omega

end

/-- Pipeline.Next from pipeline.go: a pipeline of length below one yields
(nil, nil); otherwise the head runs with the tail as continuation. -/
def Pipeline.Next (p : Pipeline) (w : Sink) (r : Request) : HOutcome :=
  nextList (p.getD []) w r

/-- ServeRequest as the Handler interface method. -/
def Handler.ServeRequest (h : Handler) (w : Sink) (r : Request) (x : Pipeline) : HOutcome :=
  serve h w r x

/-- The service fields the verified claims observe: the User-Agent header
value and the service pipeline. The entity handler seam is modeled as the
default encoder (a nil EntityHandler in the source), and the trace
configuration as empty, since every claim concerns that configuration. -/
structure Service where
  userAgent : String
  pipeline : Pipeline

/-- Headers mapping as an ordered pair list; none is the nil map. -/
def hdrList (h : Option (List (String × String))) : List (String × String) :=
  h.getD []

/-- Service.sendEntity from context.go: apply the supplied headers in
order, add the User-Agent header when the service has one, then run the
default entity handler; its error result is only logged, the sink after
its writes is the response. -/
def Service.sendEntity (svc : Service) (w : Sink) (req : Request) (status : Nat)
    (headers : Option (List (String × String))) (content : Content) : Sink :=
  let w1 := (hdrList headers).foldl (fun a kv => a.addHeader kv.1 kv.2) w
  let w2 := if svc.userAgent ≠ "" then w1.addHeader "User-Agent" svc.userAgent else w1
  (DefaultEntityHandler w2 req status content).2

/-- The content value the encoder receives for an error value: a
basicError marshals per its JSON field tags; other values carry their
abstract marshal outcome. -/
def contentOfErr : GoErr → Content
  | .basic s m => .structured (some (basicErrorJSON s m))
  | .plain _ mar => .structured mar
  | .structured _ _ _ mar => .structured mar

/-- The content for an optional cause: a nil cause is nil content (the nil
interface reaches the encoder and takes its nil branch). -/
def contentOfCause : Option GoErr → Content
  | none => .nil
  | some e => contentOfErr e

/-- htmlError from context.go. The content parameter is the cause error;
when it is the nil interface the function immediately calls Error() on it,
a nil-pointer method call, modeled as none (a panic). Otherwise it builds
the BytesEntity holding the HTML document over the escaped message; the
headers parameter is accepted and unused, as in the source. No modeled
error exposes ErrorDetail, so the detail table is never emitted. -/
def htmlError (status : Nat) (_headers : Option (List (String × String)))
    (content : Option GoErr) : Option Content :=
  match content with
  | none => none
  | some c => some (.entity "text/html" (htmlErrorDoc status (htmlEscape (errMessage c))) none)

/-- Service.sendError from context.go: a structured Error contributes its
status, headers and cause; any other error is wrapped as a basicError with
status 500 around its message. When the request accepts text/html the
content is the htmlError entity, otherwise the error value itself goes to
the encoder. The log lines are diagnostic output and are not modeled. The
result is none when htmlError panics on a nil cause. -/
def Service.sendError (svc : Service) (w : Sink) (req : Request) (err : GoErr) : Option Sink :=
  match err with
  | .structured s h c _ =>
      if req.Accepts "text/html" then
        match htmlError s h c with
        | none => none
        | some ent => some (svc.sendEntity w req s h ent)
      else
        some (svc.sendEntity w req s h (contentOfCause c))
  | e =>
      let c := GoErr.basic 500 (errMessage e)
      if req.Accepts "text/html" then
        match htmlError 500 none (some c) with
        | none => none
        | some ent => some (svc.sendEntity w req 500 none ent)
      else
        some (svc.sendEntity w req 500 none (contentOfErr c))

/-- Service.sendSuccess from context.go: a Response result contributes its
status, headers and entity verbatim; any other result, including nil, is
sent with status 200 as the entity. -/
def Service.sendSuccess (svc : Service) (w : Sink) (req : Request) (res : Option RVal) : Sink :=
  match res with
  | some (.response s h e) => svc.sendEntity w req s h e
  | some (.value c) => svc.sendEntity w req 200 none c
  | none => svc.sendEntity w req 200 none .nil

/-- Service.sendResponse from context.go: set the X-Request-Id header to
the request identity, then send success or error. -/
def Service.sendResponse (svc : Service) (w : Sink) (req : Request)
    (res : Option RVal) (err : Option GoErr) : Option Sink :=
  let w1 := w.setHeader "X-Request-Id" req.id
  match err with
  | none => some (svc.sendSuccess w1 req res)
  | some e => svc.sendError w1 req e

/-- newRequest from pipeline.go: a fresh wrapper with zero flags and a nil
attribute map. The uuid identity generation is external and is modeled as
the id parameter. -/
def newRequest (accept : Option String) (id : String) : Request :=
  ⟨accept, id, 0, none⟩

/-- Context.handle from context.go, for a service with no trace patterns
configured (the trace branch then writes nothing to the sink, and its
response replay targets a separate recorder): run the handler with a nil
parameter pipeline, then send the response only when the request was not
finalized. The proxy-address rewrite touches only the remote address,
which no modeled operation reads. -/
def Context.handle (svc : Service) (w : Sink) (req : Request) (h : Handler) : Option Sink :=
  let out := h.ServeRequest w req none
  if !out.2.2.finalized then
    svc.sendResponse out.2.1 out.2.2 out.1.1 out.1.2
  else
    some out.2.1

/-- Service.ServeHTTP from context.go: wrap the inbound request freshly,
run the service pipeline, and send a response exactly when the result or
the error is non-nil. The finalized flag is not consulted on this path. -/
def Service.ServeHTTP (svc : Service) (w : Sink) (accept : Option String)
    (id : String) : Option Sink :=
  let req := newRequest accept id
  let out := svc.pipeline.Next w req
  if out.1.1.isSome || out.1.2.isSome then
    svc.sendResponse out.2.1 out.2.2 out.1.1 out.1.2
  else
    some out.2.1

/-- Attribute maps from pipeline.go, modeled as ordered association lists
with string values (attribute values are opaque to the core). -/
abbrev Attrs := List (String × String)

/-- Map assignment: replace the value of an existing key in place, append
a new key at the end. -/
def attrsPut : Attrs → String → String → Attrs
  | [], k, v => [(k, v)]
  | kv :: rest, k, v => if kv.1 == k then (k, v) :: rest else kv :: attrsPut rest k v

/-- Map lookup. -/
def attrsGet (m : Attrs) (k : String) : Option String :=
  (m.find? (fun kv => kv.1 == k)).map (fun kv => kv.2)

/-- Merge src into dst: new keys added, existing keys overwritten. -/
def attrsMergeInto (dst src : Attrs) : Attrs :=
  src.foldl (fun d kv => attrsPut d kv.1 kv.2) dst

/-- mergeAttrs from pipeline.go: a nil variadic argument yields a nil map;
otherwise a freshly made map receives every entry of every argument in
order. -/
def mergeAttrs (a : Option (List Attrs)) : Option Attrs :=
  match a with
  | none => none
  | some maps => some (maps.foldl (fun m e => attrsMergeInto m e) [])

/-- Go maps are references; the heap of allocated attribute maps. -/
abbrev AttrHeap := List Attrs

/-- Context.Handle from context.go computes attr once per route
registration and captures that single map in the route closure; every
request created for the route receives a reference to it. Returns the heap
extended with the allocation and the captured reference (none when the
route has no attributes). -/
def registerRoute (hp : AttrHeap) (a : Option (List Attrs)) : AttrHeap × Option Nat :=
  match mergeAttrs a with
  | none => (hp, none)
  | some m => (hp ++ [m], some hp.length)

/-- newRequestWithAttributes from pipeline.go: the attribute reference is
stored in the wrapper without copying the map. -/
def newRequestWithAttributes (accept : Option String) (id : String)
    (aref : Option Nat) : Request :=
  ⟨accept, id, 0, aref⟩

/-- Request.putAttributes from pipeline.go: with a nil map the incoming
map is installed (modeled as a fresh cell with the same contents; the
source aliases the callers map, an aliasing no claim observes); otherwise
every entry is merged into the existing map in place, through the shared
reference. -/
def Request.putAttributes (hp : AttrHeap) (r : Request) (a : Attrs) : AttrHeap × Request :=
  match r.attrs with
  | none => (hp ++ [a], { r with attrs := some hp.length })
  | some ref => (hp.set ref (attrsMergeInto (hp.getD ref []) a), r)

/-- Read one attribute of a request through its map reference. -/
def getAttribute (hp : AttrHeap) (r : Request) (k : String) : Option String :=
  match r.attrs with
  | none => none
  | some ref => attrsGet (hp.getD ref []) k

/-- The elements a handler contributes when Pipeline.Add appends it to a
non-nil pipeline: a Pipeline handler contributes its own elements (none
for the nil pipeline), any other handler contributes itself. -/
def flattenOne (h : Handler) : List Handler :=
  match h with
  | .pipe v => v.getD []
  | _ => [h]

/-- Whether a handler is itself a Pipeline value. -/
def isPipe (h : Handler) : Bool :=
  match h with
  | .pipe _ => true
  | _ => false

/-- A sequence of Add calls applied in order. -/
def addAll (p : Pipeline) (hs : List Handler) : Pipeline :=
  hs.foldl Pipeline.Add p

namespace GoMem

/-!
Memory-level model of Go slices, for the claim that Pipeline.Add never
mutates its receiver. A heap is a list of backing arrays; an array cell
holds an interface value, with none as the zero (nil) value that make
fills in before copy overwrites it. A slice is a reference into the heap
with an offset, length and capacity.
-/

/-- The heap of allocated backing arrays. -/
abbrev Heap (α : Type) := List (List (Option α))

/-- A Go slice header. -/
structure GoSlice where
  ref : Nat
  off : Nat
  len : Nat
  cap : Nat
deriving Repr, DecidableEq

/-- Read a backing array. -/
def readArr {α : Type} (hp : Heap α) (ref : Nat) : List (Option α) :=
  hp.getD ref []

/-- The elements a slice designates. -/
def readView {α : Type} (hp : Heap α) (s : GoSlice) : List (Option α) :=
  ((readArr hp s.ref).drop s.off).take s.len

/-- make(Pipeline, n): allocate a fresh zero-filled array of length n and
return the full slice over it. -/
def goMake {α : Type} (hp : Heap α) (n : Nat) : Heap α × GoSlice :=
  (hp ++ [List.replicate n none], ⟨hp.length, 0, n, n⟩)

/-- copy(dst, src): overwrite the first min(dst.len, src.length) cells of
the destination slice with the source elements. -/
def goCopy {α : Type} (hp : Heap α) (dst : GoSlice) (src : List (Option α)) : Heap α :=
  let arr := readArr hp dst.ref
  let k := min dst.len src.length
  hp.set dst.ref (arr.take dst.off ++ src.take k ++ arr.drop (dst.off + k))

/-- append(s, es...): within capacity the elements land in the existing
backing array past the slice length; beyond capacity a fresh array is
allocated holding the old elements followed by the new ones. -/
def goAppend {α : Type} (hp : Heap α) (s : GoSlice) (es : List α) : Heap α × GoSlice :=
  if s.len + es.length ≤ s.cap then
    let arr := readArr hp s.ref
    let arr2 := arr.take (s.off + s.len) ++ es.map some ++ arr.drop (s.off + s.len + es.length)
    (hp.set s.ref arr2, ⟨s.ref, s.off, s.len + es.length, s.cap⟩)
  else
    (hp ++ [readView hp s ++ es.map some],
     ⟨hp.length, 0, s.len + es.length, s.len + es.length⟩)

/-- Pipeline.Add at the memory level, mirroring the source line by line: a
nil receiver allocates the one-element literal; otherwise make a fresh
slice of the receiver length, copy the receiver into it, and append the
handler (its elements, when it is a pipeline, per the type switch). -/
def addMem (hp : Heap Handler) (p : Option GoSlice) (h : Handler) :
    Heap Handler × GoSlice :=
  match p with
  | none => (hp ++ [[some h]], ⟨hp.length, 0, 1, 1⟩)
  | some s =>
      let m := goMake hp s.len
      let hp2 := goCopy m.1 m.2 (readView m.1 s)
      goAppend hp2 m.2 (flattenOne h)

/-- The elements a pipeline value designates; a nil pipeline has none. -/
def viewPipe (hp : Heap Handler) (p : Option GoSlice) : List (Option Handler) :=
  match p with
  | none => []
  | some s => readView hp s

end GoMem

/-! Concrete values used by counterexamples and witnesses. -/

/-- A probe handler that returns the no-op outcome. -/
def probeA : Handler := .act (fun w r => ((none, none), w, r))

/-- A handler that finalizes the request and returns an unstructured
error, modeling a handler that takes over the response itself. -/
def finBoom : Handler := .act (fun w r => ((none, some (.plain "boom" none)), w, r.Finalize))

/-- A handler that finalizes the request and returns the (nil, nil)
outcome. -/
def finQuiet : Handler := .act (fun w r => ((none, none), w, r.Finalize))

/-- A service with no User-Agent and an empty pipeline. -/
def svc0 : Service := ⟨"", none⟩

/-- A service whose pipeline holds only the finalizing error handler. -/
def svcFin : Service := ⟨"", some [finBoom]⟩

/-- A request without an Accept header. -/
def reqPlain : Request := ⟨none, "rid", 0, none⟩

/-- A request that accepts text/html. -/
def reqHTML : Request := ⟨some "text/html", "rid", 0, none⟩

/-- The User-Agent pairs sendEntity adds for a service. -/
def uaHeaders (svc : Service) : List (String × String) :=
  if svc.userAgent ≠ "" then [("User-Agent", svc.userAgent)] else []

/-- The header pairs the default encoder adds for each content shape. -/
def ctHeaders : Content → List (String × String)
  | .nil => []
  | .noop => []
  | .entity ct _ _ => [("Content-Type", ct)]
  | .rawJSON _ => [("Content-Type", "application/json")]
  | .structured _ => [("Content-Type", "application/json")]

/-- The body chunks the default encoder writes for each content shape. -/
def ctBody : Content → List String
  | .nil => []
  | .noop => []
  | .entity _ d _ => [d]
  | .rawJSON d => [d]
  | .structured none => []
  | .structured (some d) => [d]

/-- The status-line writes the default encoder performs for each content
shape: none for the no-op marker, exactly one otherwise. -/
def ctStatus (ct : Content) (status : Nat) : List Nat :=
  match ct with
  | .noop => []
  | _ => [status]

/-- Whether an error value is the structured Error shape. -/
def isStructured : GoErr → Bool
  | .structured _ _ _ _ => true
  | _ => false

/-- The sink produced for the C6 witness case. -/
def wC6 : Sink :=
  ⟨[("Content-Type", "application/json")], [404], [basicErrorJSON 404 "not found"]⟩

/-! Helper lemmas about the sink and the entity encoder. -/

/-- Folding addHeader over a pair list appends the pairs. -/
theorem foldl_addHeader (l : List (String × String)) (w : Sink) :
    l.foldl (fun a kv => a.addHeader kv.1 kv.2) w =
      { w with headers := w.headers ++ l } := by
  induction l generalizing w with
  | nil => simp
  | cons kv rest ih =>
      simp only [List.foldl_cons]
      rw [ih]
      simp [Sink.addHeader]

/-- The default encoder writes exactly the headers, status writes and body
chunks given by ctHeaders, ctStatus and ctBody. -/
theorem DefaultEntityHandler_sink (w : Sink) (req : Request) (status : Nat)
    (ct : Content) :
    (DefaultEntityHandler w req status ct).2 =
      { headers := w.headers ++ ctHeaders ct,
        statusWrites := w.statusWrites ++ ctStatus ct status,
        bodyWrites := w.bodyWrites ++ ctBody ct } := by
  cases ct with
  | nil => simp [DefaultEntityHandler, ctHeaders, ctBody, ctStatus, Sink.writeHeader]
  | noop => simp [DefaultEntityHandler, ctHeaders, ctBody, ctStatus]
  | entity c d e =>
      cases e <;>
        simp [DefaultEntityHandler, ctHeaders, ctBody, ctStatus, Sink.addHeader,
          Sink.writeHeader, Sink.writeBody]
  | rawJSON d =>
      simp [DefaultEntityHandler, ctHeaders, ctBody, ctStatus, Sink.addHeader,
        Sink.writeHeader, Sink.writeBody]
  | structured m =>
      cases m <;>
        simp [DefaultEntityHandler, ctHeaders, ctBody, ctStatus, Sink.addHeader,
          Sink.writeHeader, Sink.writeBody]

/-- sendEntity in terms of the default encoder over the sink with the
supplied headers and the User-Agent header applied. -/
theorem sendEntity_eq (svc : Service) (w : Sink) (req : Request) (s : Nat)
    (h : Option (List (String × String))) (ct : Content) :
    svc.sendEntity w req s h ct =
      (DefaultEntityHandler
        { w with headers := w.headers ++ hdrList h ++ uaHeaders svc } req s ct).2 := by
  unfold Service.sendEntity uaHeaders
  rw [foldl_addHeader]
  split <;> simp [Sink.addHeader]

/-- The sink sendEntity produces, in closed form. -/
theorem sendEntity_sink (svc : Service) (w : Sink) (req : Request) (s : Nat)
    (h : Option (List (String × String))) (ct : Content) :
    svc.sendEntity w req s h ct =
      { headers := w.headers ++ hdrList h ++ uaHeaders svc ++ ctHeaders ct,
        statusWrites := w.statusWrites ++ ctStatus ct s,
        bodyWrites := w.bodyWrites ++ ctBody ct } := by
  rw [sendEntity_eq, DefaultEntityHandler_sink]

/-- The error content handed to the encoder is never the no-op marker. -/
theorem contentOfCause_ne_noop (c : Option GoErr) : contentOfCause c ≠ .noop := by
  cases c with
  | none => simp [contentOfCause]
  | some e => cases e <;> simp [contentOfCause, contentOfErr]

/-! Claim theorems. -/

/-- C9: for every sink and request, Next on an empty pipeline (nil or
allocated empty) returns the (nil, nil) outcome, and Next on a non-empty
pipeline invokes the first handler with the remaining handlers as its
continuation and returns exactly what that handler returns. -/
theorem next_empty_and_dispatch (w : Sink) (r : Request) :
    Pipeline.Next none w r = ((none, none), w, r) ∧
    Pipeline.Next (some []) w r = ((none, none), w, r) ∧
    ∀ (h : Handler) (t : List Handler),
      Pipeline.Next (some (h :: t)) w r = h.ServeRequest w r (some t) := by
  refine ⟨?_, ?_, fun h t => ?_⟩ <;>
    simp [Pipeline.Next, Handler.ServeRequest, nextList, Option.getD]

/-- C10 counterexample: with the Accept header present and empty and the
content type the empty string, the comma-split membership test stated by
the claim succeeds, yet Accepts returns false, so the stated equivalence
fails. -/
theorem accepts_iff_cex :
    Request.Accepts ⟨some "", "rid", 0, none⟩ "" = false ∧
    acceptsClaim "" "" = true := by decide

/-- C10 amended: Accepts returns true exactly when the Accept header value
is nonempty and its comma-split parts, trimmed, contain a case-insensitive
match for the content type; in particular it returns false for every
content type when the header is absent or empty. -/
theorem accepts_spec (r : Request) (c : String) :
    r.Accepts c = (!(r.acceptValue == "") && acceptsClaim r.acceptValue c) := by
  unfold Request.Accepts acceptsClaim
  by_cases h : r.acceptValue = "" <;> simp [h]

/-- C1 counterexample: a marshal failure at requested status 404 leaves
exactly one status write holding 404, not 500; the marshal error is
returned and no body is written. -/
theorem marshal_failure_cex :
    DefaultEntityHandler emptySink ⟨none, "rid", 0, none⟩ 404 (.structured none) =
      (some "Could not marshal entity",
       ⟨[("Content-Type", "application/json")], [404], []⟩) ∧
    (404 : Nat) ≠ 500 := by
  exact ⟨by decide, by decide⟩

/-- C1 amended: on the default branch, a marshal failure leaves the
response with the originally requested status, which was already written
before marshaling; no body is emitted and the failure is reported as a
returned error. The status is not forced to 500. -/
theorem marshal_failure_spec (w : Sink) (req : Request) (status : Nat) :
    DefaultEntityHandler w req status (.structured none) =
      (some "Could not marshal entity",
       { w with headers := w.headers ++ [("Content-Type", "application/json")],
                statusWrites := w.statusWrites ++ [status] }) := by
  simp [DefaultEntityHandler, Sink.addHeader, Sink.writeHeader]

/-- C7: sendSuccess passes a Response result through verbatim, using its
status code, headers and entity; every other result, including nil, is
sent with status 200 as the raw entity. For a concrete Response carrying a
pre-encoded JSON entity the emitted status and body are exactly those of
the Response. -/
theorem sendSuccess_spec (svc : Service) (w : Sink) (req : Request) :
    (∀ (s : Nat) (h : Option (List (String × String))) (e : Content),
        svc.sendSuccess w req (some (.response s h e)) = svc.sendEntity w req s h e) ∧
    (∀ c : Content,
        svc.sendSuccess w req (some (.value c)) = svc.sendEntity w req 200 none c) ∧
    svc.sendSuccess w req none = svc.sendEntity w req 200 none .nil ∧
    (∀ (s : Nat) (h : Option (List (String × String))) (d : String),
        (svc.sendSuccess w req (some (.response s h (.rawJSON d)))).statusWrites =
          w.statusWrites ++ [s] ∧
        (svc.sendSuccess w req (some (.response s h (.rawJSON d)))).bodyWrites =
          w.bodyWrites ++ [d]) := by
  refine ⟨fun s h e => rfl, fun c => rfl, rfl, fun s h d => ?_⟩
  constructor <;>
    simp [Service.sendSuccess, sendEntity_sink, ctStatus, ctBody]

/-- C3 evaluated at the failing input: a route is registered with the
attribute k mapped to v0; two requests are created for it; before any
mutation the second request observes v0, and after a handler calls
putAttributes with k mapped to v1 on the first request, the second request
observes v1 through the shared route map, so mutable state is shared
between distinct requests. -/
theorem shared_route_attrs_mutation :
    getAttribute (registerRoute [] (some [[("k", "v0")]])).1
      (newRequestWithAttributes none "id2" (registerRoute [] (some [[("k", "v0")]])).2)
      "k" = some "v0" ∧
    getAttribute
      (Request.putAttributes (registerRoute [] (some [[("k", "v0")]])).1
        (newRequestWithAttributes none "id1" (registerRoute [] (some [[("k", "v0")]])).2)
        [("k", "v1")]).1
      (newRequestWithAttributes none "id2" (registerRoute [] (some [[("k", "v0")]])).2)
      "k" = some "v1" := by decide

/-- The status writes of a non-noop content are exactly the one status. -/
theorem ctStatus_of_ne_noop (ct : Content) (s : Nat) (h : ct ≠ .noop) :
    ctStatus ct s = [s] := by
  cases ct <;> simp [ctStatus] at h ⊢

/-- C6: the dispatcher maps a structured Error to a response bearing that
error status, its headers, and a body derived from its cause (the HTML
rendering of the cause message when the request accepts text/html, the
cause value itself otherwise); every other error value yields status 500
with a basicError wrapping the error message as the body, so the
unstructured branch always hands the encoder a structured JSON or HTML
body, never the bare error. -/
theorem sendError_spec (svc : Service) (w : Sink) (req : Request) :
    (∀ (s : Nat) (h : Option (List (String × String))) (c : Option GoErr)
        (mar : Option String) (w' : Sink),
        svc.sendError w req (.structured s h c mar) = some w' →
        w'.statusWrites = w.statusWrites ++ [s] ∧
        (∃ tail, w'.headers = w.headers ++ hdrList h ++ tail) ∧
        (req.Accepts "text/html" = false →
          w' = svc.sendEntity w req s h (contentOfCause c)) ∧
        (∀ ce, c = some ce → req.Accepts "text/html" = true →
          w' = svc.sendEntity w req s h
            (.entity "text/html" (htmlErrorDoc s (htmlEscape (errMessage ce))) none))) ∧
    (∀ e : GoErr, isStructured e = false →
        svc.sendError w req e =
          some (svc.sendEntity w req 500 none
            (if req.Accepts "text/html" = true
             then .entity "text/html" (htmlErrorDoc 500 (htmlEscape (errMessage e))) none
             else .structured (some (basicErrorJSON 500 (errMessage e)))))) := by
  constructor
  · intro s h c mar w' hsend
    cases hacc : req.Accepts "text/html" with
    | false =>
        simp [Service.sendError, hacc] at hsend
        refine ⟨?_, ⟨uaHeaders svc ++ ctHeaders (contentOfCause c), ?_⟩,
          fun _ => hsend.symm, fun ce hce habs => by simp [hacc] at habs⟩
        · rw [← hsend, sendEntity_sink,
            ctStatus_of_ne_noop _ _ (contentOfCause_ne_noop c)]
        · rw [← hsend, sendEntity_sink]
          simp
    | true =>
        cases c with
        | none => simp [Service.sendError, hacc, htmlError] at hsend
        | some ce =>
            simp [Service.sendError, hacc, htmlError] at hsend
            refine ⟨?_, ⟨uaHeaders svc ++
              ctHeaders (.entity "text/html"
                (htmlErrorDoc s (htmlEscape (errMessage ce))) none), ?_⟩,
              fun habs => by simp [hacc] at habs,
              fun ce2 hce2 _ => by
                cases hce2
                exact hsend.symm⟩
            · rw [← hsend, sendEntity_sink]
              rfl
            · rw [← hsend, sendEntity_sink]
              simp
  · intro e he
    cases e with
    | structured s h c mar => simp [isStructured] at he
    | basic s0 m =>
        cases hacc : req.Accepts "text/html" <;>
          simp [Service.sendError, hacc, htmlError, contentOfErr, errMessage]
    | plain m mar =>
        cases hacc : req.Accepts "text/html" <;>
          simp [Service.sendError, hacc, htmlError, contentOfErr, errMessage]

/-- C6 witness: a structured Error with status 404 and a basicError cause,
on a request without an Accept header, is emitted with exactly one status
write holding 404. -/
theorem sendError_spec_witness :
    Service.sendError svc0 emptySink reqPlain
        (.structured 404 none (some (.basic 404 "not found")) none) = some wC6 ∧
    wC6.statusWrites = emptySink.statusWrites ++ [404] := by
  have hs : Service.sendError svc0 emptySink reqPlain
      (.structured 404 none (some (.basic 404 "not found")) none) = some wC6 := by rfl
  exact ⟨hs, ((sendError_spec svc0 emptySink reqPlain).1 404 none
    (some (.basic 404 "not found")) none wC6 hs).1⟩

/-- C8: when a structured Error carrying a nil cause reaches the error
path of a request that accepts text/html, sendError passes the nil cause
to htmlError, whose immediate Error() call on the nil error value is a nil
pointer method call: the rendering has no result (modeled none, a panic)
and the dispatcher produces no response on that branch. -/
theorem htmlError_nil_cause (svc : Service) (w : Sink) (req : Request)
    (s : Nat) (h : Option (List (String × String))) (mar : Option String)
    (hacc : req.Accepts "text/html" = true) :
    htmlError s h none = none ∧
    svc.sendError w req (.structured s h none mar) = none := by
  exact ⟨rfl, by simp [Service.sendError, hacc, htmlError]⟩

/-- C8 witness: a request with Accept text/html and a 404 Error built
without a cause reach the panicking branch. -/
theorem htmlError_nil_cause_witness :
    Request.Accepts reqHTML "text/html" = true ∧
    Service.sendError svc0 emptySink reqHTML (.structured 404 none none none) = none :=
  ⟨by decide,
   (htmlError_nil_cause svc0 emptySink reqHTML 404 none none (by decide)).2⟩

/-- C2 counterexample: a handler that finalizes the request and returns an
unstructured error, dispatched through Service.ServeHTTP, still receives a
dispatcher-written response: although the pipeline finalized the request
before returning, one status write holding 500 lands on the sink. -/
theorem serveHTTP_ignores_finalize_cex :
    ((Pipeline.Next svcFin.pipeline emptySink (newRequest none "rid")).2.2).finalized = true ∧
    (Service.ServeHTTP svcFin emptySink none "rid").map Sink.statusWrites = some [500] := by
  have hnext : Pipeline.Next svcFin.pipeline emptySink (newRequest none "rid") =
      ((none, some (.plain "boom" none)), emptySink, (newRequest none "rid").Finalize) := by
    simp [svcFin, finBoom, Pipeline.Next, nextList, serve, Option.getD]
  constructor
  · rw [hnext]
    decide
  · rw [Service.ServeHTTP, hnext]
    rfl

/-- C2 amended: on the routed Context.handle path a request finalized by
its handler receives no dispatcher write at all, the sink remaining
exactly as the handler left it; on the Service.ServeHTTP path the
dispatcher refrains from writing only when the terminal pair is
(nil, nil), the finalized flag not being consulted there. -/
theorem finalize_suppression (svc : Service) :
    (∀ (w : Sink) (req : Request) (hd : Handler) (res : Option RVal)
        (err : Option GoErr) (w' : Sink) (req' : Request),
        hd.ServeRequest w req none = ((res, err), w', req') →
        req'.finalized = true →
        Context.handle svc w req hd = some w') ∧
    (∀ (w : Sink) (accept : Option String) (id : String) (w' : Sink) (req' : Request),
        Pipeline.Next svc.pipeline w (newRequest accept id) = ((none, none), w', req') →
        Service.ServeHTTP svc w accept id = some w') := by
  constructor
  · intro w req hd res err w' req' hserve hfin
    simp [Context.handle, hserve, hfin]
  · intro w accept id w' req' hnext
    simp [Service.ServeHTTP, hnext]

/-- C2 witness: a handler that finalizes and returns (nil, nil) leaves the
routed dispatch with the untouched sink, and an empty service pipeline
leaves ServeHTTP with the untouched sink. -/
theorem finalize_suppression_witness :
    Context.handle svc0 emptySink reqPlain finQuiet = some emptySink ∧
    Service.ServeHTTP svc0 emptySink none "rid" = some emptySink := by
  have h1 : Handler.ServeRequest finQuiet emptySink reqPlain none =
      ((none, none), emptySink, reqPlain.Finalize) := by
    simp [Handler.ServeRequest, serve, finQuiet]
  have h2 : Pipeline.Next svc0.pipeline emptySink (newRequest none "rid") =
      ((none, none), emptySink, newRequest none "rid") := by
    simp [svc0, Pipeline.Next, nextList, Option.getD]
  exact ⟨(finalize_suppression svc0).1 emptySink reqPlain finQuiet none none
      emptySink reqPlain.Finalize h1 (by decide),
    (finalize_suppression svc0).2 emptySink none "rid" emptySink
      (newRequest none "rid") h2⟩

/-- Adding one handler to a non-nil pipeline appends its one-level
flattening. -/
theorem add_step (l : List Handler) (h : Handler) :
    Pipeline.Add (some l) h = some (l ++ flattenOne h) := by
  cases h <;> simp [Pipeline.Add, flattenOne]

/-- A sequence of Add calls from a non-nil pipeline appends the one-level
flattenings in call order. -/
theorem addAll_from_some (hs : List Handler) :
    ∀ l : List Handler, addAll (some l) hs = some (l ++ (hs.map flattenOne).flatten) := by
  induction hs with
  | nil => intro l; simp [addAll]
  | cons h t ih =>
      intro l
      have step : addAll (some l) (h :: t) = addAll (Pipeline.Add (some l) h) t := by
        simp [addAll]
      rw [step, add_step, ih]
      simp

/-- C4 counterexample: adding a pipeline handler to the nil pipeline wraps
it as a single element instead of contributing its elements individually:
the result holds one element which is itself a pipeline, not the flattened
element list. -/
theorem add_nil_pipe_cex :
    Pipeline.Add none (.pipe (some [probeA])) = some [Handler.pipe (some [probeA])] ∧
    isPipe (Handler.pipe (some [probeA])) = true ∧
    Pipeline.Add none (.pipe (some [probeA])) ≠ some (flattenOne (.pipe (some [probeA]))) := by
  refine ⟨rfl, rfl, fun hcontra => ?_⟩
  simp [Pipeline.Add, flattenOne, probeA] at hcontra

/-- C4 amended: for every sequence of Add calls starting from the
allocated empty pipeline, the result is the concatenation, in call order,
of the one-level flattenings of the added handlers (a pipeline handler
contributes its elements individually in order); when no added handler
contributes a pipeline element, no element of the result is a pipeline.
Starting from the nil pipeline instead, the first Add appends its handler
without flattening. -/
theorem add_flatten_from_empty (hs : List Handler) :
    addAll (some []) hs = some ((hs.map flattenOne).flatten) ∧
    ((hs.all fun h => (flattenOne h).all fun e => !(isPipe e)) = true →
      (((hs.map flattenOne).flatten).all fun e => !(isPipe e)) = true) := by
  constructor
  · simpa using addAll_from_some hs []
  · intro hall
    rw [List.all_eq_true] at hall ⊢
    intro e he
    obtain ⟨l, hl, hel⟩ := List.mem_flatten.mp he
    obtain ⟨h, hh, rfl⟩ := List.mem_map.mp hl
    exact List.all_eq_true.mp (hall h hh) e hel

/-- C4 witness: adding a plain handler and then a pipeline holding one
plain handler, starting from the allocated empty pipeline, yields the two
plain handlers in order and no pipeline element. -/
theorem add_flatten_from_empty_witness :
    addAll (some []) [probeA, Handler.pipe (some [probeA])] = some [probeA, probeA] ∧
    (([probeA, probeA] : List Handler).all fun e => !(isPipe e)) = true := by
  have h := add_flatten_from_empty [probeA, Handler.pipe (some [probeA])]
  exact ⟨h.1, h.2 (by decide)⟩

namespace GoMem

/-- Cells below the old heap length survive appending arrays. -/
theorem readArr_append {α : Type} (hp : Heap α) (cells : List (List (Option α)))
    (i : Nat) (hi : i < hp.length) : readArr (hp ++ cells) i = readArr hp i := by
  unfold readArr
  simp [List.getD_eq_getElem?_getD, List.getElem?_append, hi]

/-- Cells other than the written one survive a set. -/
theorem readArr_set_ne {α : Type} (hp : Heap α) (j : Nat) (arr : List (Option α))
    (i : Nat) (hne : i ≠ j) : readArr (hp.set j arr) i = readArr hp i := by
  unfold readArr
  simp [List.getD_eq_getElem?_getD, List.getElem?_set_ne (Ne.symm hne)]

/-- Pipeline.Add at the memory level writes only freshly allocated arrays:
every cell of the original heap is unchanged. -/
theorem addMem_frame (hp : Heap Handler) (p : Option GoSlice) (h : Handler)
    (i : Nat) (hi : i < hp.length) :
    readArr (addMem hp p h).1 i = readArr hp i := by
  cases p with
  | none => exact readArr_append hp _ i hi
  | some s =>
      have hcopy : readArr (goCopy (goMake hp s.len).1 (goMake hp s.len).2
          (readView (goMake hp s.len).1 s)) i = readArr hp i := by
        unfold goCopy goMake
        rw [readArr_set_ne _ _ _ _ (by simp; omega)]
        exact readArr_append hp _ i hi
      have hlen : i < (goCopy (goMake hp s.len).1 (goMake hp s.len).2
          (readView (goMake hp s.len).1 s)).length := by
        simp [goCopy, goMake]
        omega
      show readArr (goAppend _ _ _).1 i = readArr hp i
      unfold goAppend
      split
      · rw [readArr_set_ne _ _ _ _ (by simp [goMake]; omega)]
        exact hcopy
      · rw [readArr_append _ _ i hlen]
        exact hcopy

/-- C5: Pipeline.Add does not mutate its receiver: for every pipeline
value over a valid array reference and every handler, the elements the
receiver designates after the call are the same, in the same order (and
hence of the same length), as before; the copy and the append write only
freshly allocated arrays. -/
theorem add_no_mutation (hp : Heap Handler) (p : Option GoSlice) (h : Handler)
    (hv : ∀ s, p = some s → s.ref < hp.length) :
    viewPipe (addMem hp p h).1 p = viewPipe hp p := by
  cases p with
  | none => rfl
  | some s =>
      show readView (addMem hp (some s) h).1 s = readView hp s
      unfold readView
      rw [addMem_frame hp (some s) h s.ref (hv s rfl)]

/-- C5 witness: a one-element pipeline over a one-array heap designates
the same element after an Add appends a handler to a copy. -/
theorem add_no_mutation_witness :
    (⟨0, 0, 1, 1⟩ : GoSlice).ref < ([[some probeA]] : Heap Handler).length ∧
    viewPipe (addMem [[some probeA]] (some ⟨0, 0, 1, 1⟩) probeA).1 (some ⟨0, 0, 1, 1⟩) =
      viewPipe [[some probeA]] (some ⟨0, 0, 1, 1⟩) :=
  ⟨by decide,
   add_no_mutation [[some probeA]] (some ⟨0, 0, 1, 1⟩) probeA
     (fun s hs => by cases hs; decide)⟩

end GoMem

end GoRest
